import Mathlib

/-!
# Verification of the training orchestration loop (`train.py`)

Shallow embedding of the training/evaluation orchestration core of the
repository (`src/train.py`) together with theorems settling the claims of
the specification.  Scalar floating-point values are modelled by `PyFloat`,
a four-way split into NaN, the two infinities and a finite rational, with
comparison operators mirroring IEEE semantics as exposed by `np.greater`
and `np.less` (any comparison involving NaN is false).
-/

/-- Model of a Python/numpy floating scalar: NaN, ±∞ or a finite rational. -/
inductive PyFloat where
  | nan : PyFloat
  | inf : PyFloat
  | neginf : PyFloat
  | fin : ℚ → PyFloat
deriving DecidableEq

/-- `np.isfinite`: true exactly on finite values. -/
def PyFloat.isFinite : PyFloat → Bool
  | .fin _ => true
  | _ => false

/-- Strict `<` with IEEE semantics: any comparison with NaN is false,
`-∞ < x` for every non-NaN `x ≠ -∞`, `x < ∞` for every non-NaN `x ≠ ∞`. -/
def PyFloat.lt : PyFloat → PyFloat → Bool
  | .nan, _ => false
  | _, .nan => false
  | .fin a, .fin b => decide (a < b)
  | .neginf, .neginf => false
  | .neginf, _ => true
  | _, .neginf => false
  | .inf, _ => false
  | _, .inf => true

/-- Initial `best_val_metric` in `run_train` (`train.py` lines 209-216):
`-np.inf` when the metric's declared mode is `"max"`, `np.inf` otherwise. -/
def init_best (metric_mode : String) : PyFloat :=
  if metric_mode = "max" then PyFloat.neginf else PyFloat.inf

/-- The `objective_op` chosen in `run_train`: `np.greater` for mode `"max"`
(applied as `objective_op(val_metric, best_val_metric)`), `np.less`
otherwise. -/
def objective_op (metric_mode : String) (val_metric best_val_metric : PyFloat) : Bool :=
  if metric_mode = "max" then PyFloat.lt best_val_metric val_metric
  else PyFloat.lt val_metric best_val_metric

/-- The checkpoint decision after an evaluation on the coordinating worker
(`train.py` lines 358-372): when `objective_op(val_metric, best_val_metric)`
holds *and* `save_best_checkpoint` is enabled, a checkpoint is saved and
`best_val_metric` is set to `val_metric`; otherwise neither happens.
Returns `(new best_val_metric, whether a checkpoint was saved)`. -/
def checkpoint_decision (metric_mode : String) (save_best_checkpoint : Bool)
    (best_val_metric val_metric : PyFloat) : PyFloat × Bool :=
  if objective_op metric_mode val_metric best_val_metric && save_best_checkpoint then
    (val_metric, true)
  else
    (best_val_metric, false)

/-- The divergence test of one training iteration (`train.py` lines 279-293):
the fatal check lives in the `else` (supervised) branch of
`if cfg.training.use_rlhf`, and raises `LLMTrainingException` exactly when
`~np.isfinite(output_dict["loss"]) and (itr >= 20)`, where `itr` is the
0-based per-epoch batch index. -/
def divergence_check (use_rlhf : Bool) (loss : PyFloat) (itr : ℕ) : Bool :=
  !use_rlhf && (!loss.isFinite && decide (20 ≤ itr))

/-- First aborting batch index of one supervised epoch: the loop enumerates
batches as `itr = 0, 1, …, epoch_steps - 1` and raises at the first one
where `divergence_check` fires. -/
def epochFirstAbort (epoch_steps : ℕ) (lossOf : ℕ → PyFloat) : Option ℕ :=
  (List.range epoch_steps).find? (fun itr => divergence_check false (lossOf itr) itr)

/-- First abort point of a whole supervised run (`run_train`'s epoch loop):
epochs run in order `0, …, epochs - 1`, each restarting `itr` at `0`; the
result is the first `(epoch, itr)` whose loss triggers the fatal check, or
`none` when the run completes. `loss e i` is the loss recorded at epoch `e`,
batch index `i`. -/
def firstAbort (epochs epoch_steps : ℕ) (loss : ℕ → ℕ → PyFloat) : Option (ℕ × ℕ) :=
  (List.range epochs).findSome? (fun e =>
    (epochFirstAbort epoch_steps (loss e)).map (fun i => (e, i)))

/-- One record handed to `cfg.logging._logger.log(channel, key, value, step)`. -/
structure LogEntry where
  channel : String
  key : String
  value : PyFloat
deriving DecidableEq

/-- The RLHF-specific diagnostic logging of one iteration (`train.py` lines
296-309): every entry of the step's output mapping that is a scalar is
logged on the `train` channel, but only when `np.isfinite` holds of it. -/
def rlhf_diag_logs (output_dict : List (String × PyFloat)) : List LogEntry :=
  (output_dict.filter (fun kv => kv.2.isFinite)).map
    (fun kv => { channel := "train", key := kv.1, value := kv.2 })

/-- The loss sequence of the counterexample run for claim C2: every loss is
finite except the one at epoch 2, batch index 5 (run iteration 25 when
`epoch_steps = 10`). -/
def c2Loss (e itr : ℕ) : PyFloat :=
  if e = 2 ∧ itr = 5 then PyFloat.nan else PyFloat.fin 1

/-- The loss sequence used by the witness of the amended claim C2: NaN at
batch index 24 of the single epoch, finite elsewhere. -/
def c2WitnessLoss (_e itr : ℕ) : PyFloat :=
  if itr = 24 then PyFloat.nan else PyFloat.fin 1

/-- The RLHF step output mapping used by the witness of claim C10: the PPO
total loss is NaN, one further diagnostic is finite. -/
def c10Output : List (String × PyFloat) :=
  [("ppo/loss/total", PyFloat.nan), ("ppo/mean_scores", PyFloat.fin 1)]

/-- Python `int()` applied to a rational: truncation toward zero. -/
def py_int (q : ℚ) : ℤ := if 0 ≤ q then ⌊q⌋ else ⌈q⌉

/-- The evaluation interval of `run_train` (`train.py` line 259):
`evaluation_step = int(epoch_steps * cfg.training.evaluation_epochs)`. -/
def evaluation_step (epoch_steps : ℕ) (evaluation_epochs : ℚ) : ℤ :=
  py_int ((epoch_steps : ℚ) * evaluation_epochs)

/-- The evaluation trigger of the training loop (`train.py` line 347):
`(itr + 1) % evaluation_step == 0`, with `itr` the 0-based batch index. -/
def eval_triggered (itr : ℕ) (es : ℤ) : Bool :=
  ((itr : ℤ) + 1) % es == 0

/-- Modelled from the spec: the interval the claim asserts, rounding
`steps_per_epoch × evaluation_fraction` to the nearest integer. -/
def spec_round (q : ℚ) : ℤ := ⌊q + 1 / 2⌋

/-- Modelled from the spec: the length of one gathered output entry
produced by `run_inference` and `sync_across_processes` (both live outside
`src/`): each of the `W` workers processes a shard padded (rounded up) to
`⌈N / W⌉` examples of the `N`-example validation set, and the gather
concatenates the `W` shards, so each gathered entry has
`W * ⌈N / W⌉` leading entries. -/
def gathered_length (W N : ℕ) : ℕ := W * ((N + W - 1) / W)

/-- The truncation step of `run_eval` (`train.py` lines 113-115): every
entry of the gathered output mapping is cut to the declared validation-set
length, `val_data[k] = v[: len(val_dataloader.dataset)]`. -/
def truncate_val_data (N : ℕ) (val_data : List (String × List ℤ)) : List (String × List ℤ) :=
  val_data.map (fun kv => (kv.1, kv.2.take N))

/-- The observable actions of one supervised optimization step
(`train_one_batch`, `train.py` lines 392-420), in program order. -/
inductive StepEv where
  | forward : StepEv
  | rescale : StepEv
  | backward : StepEv
  | record : StepEv
  | clip : StepEv
  | optStep : StepEv
  | zeroGrad : StepEv
  | schedStep : StepEv
deriving DecidableEq

/-- Result of one supervised step: the scalar written into
`output_dict["loss"]` and the ordered trace of actions taken. -/
structure StepResult where
  recorded_loss : ℚ
  events : List StepEv
deriving DecidableEq

/-- `train_one_batch` (`train.py` lines 392-420): the forward pass produces
`raw_loss`; when `cfg.training.grad_accumulation != 1` the loss is rescaled
to `loss / grad_accumulation`; `accelerator.backward` then runs on the
(possibly rescaled) loss; the same scalar is recorded into
`output_dict["loss"]`; gradients are clipped when
`cfg.training.gradient_clip > 0` and this is a gradient-sync step; finally
optimizer step, gradient zeroing and (if a scheduler exists) scheduler
step. -/
def train_one_batch (raw_loss : ℚ) (grad_accumulation : ℕ) (gradient_clip : ℚ)
    (sync_gradients : Bool) (has_scheduler : Bool) : StepResult :=
  let loss :=
    if grad_accumulation ≠ 1 then raw_loss / (grad_accumulation : ℚ) else raw_loss
  { recorded_loss := loss
    events :=
      [StepEv.forward]
        ++ (if grad_accumulation ≠ 1 then [StepEv.rescale] else [])
        ++ [StepEv.backward, StepEv.record]
        ++ (if 0 < gradient_clip ∧ sync_gradients = true then [StepEv.clip] else [])
        ++ [StepEv.optStep, StepEv.zeroGrad]
        ++ (if has_scheduler then [StepEv.schedStep] else []) }

/-- The depadding of one query in `train_rlhf_one_batch` (`train.py` lines
453-460): `input_ids[torch.where(att_mask == 1)[0].min():]` when some mask
entry equals 1, otherwise the unmodified `input_ids`. -/
def strip_query (input_ids att_mask : List ℤ) : List ℤ :=
  match att_mask.findIdx? (fun m => m == 1) with
  | some i => input_ids.drop i
  | none => input_ids

/-- The depadding of one generated response (`train.py` lines 465-475):
`predicted_answer_ids[: torch.where(predicted_answer_ids == pad_tok_id)[0].min()]`
when some generated token equals the pad token, otherwise the unmodified
sequence. -/
def strip_response (predicted_answer_ids : List ℤ) (pad_tok_id : ℤ) : List ℤ :=
  match predicted_answer_ids.findIdx? (fun t => t == pad_tok_id) with
  | some i => predicted_answer_ids.take i
  | none => predicted_answer_ids

/-- The observable per-iteration actions of the training loop around the
global step counter (`train.py` lines 260-263): at batch index `itr` the
counter is first advanced, and the step is then executed and logged. -/
inductive LoopEv where
  | incr : ℕ → ℕ → LoopEv
  | exec : ℕ → LoopEv
  | log : ℕ → LoopEv
deriving DecidableEq

/-- Value of `cfg.environment._curr_step` right after the increment of
batch index `itr`: the counter starts at 0 (`train.py` line 653) and gains
`cfg.training.batch_size * accelerator.num_processes` per iteration. -/
def curr_step_value (batch_size num_processes itr : ℕ) : ℕ :=
  (itr + 1) * (batch_size * num_processes)

/-- Event trace of the first `n` training iterations: each iteration first
advances the counter (recording its new value), then executes the step,
then logs it. -/
def train_loop_trace (batch_size num_processes : ℕ) : ℕ → List LoopEv
  | 0 => []
  | n + 1 =>
      train_loop_trace batch_size num_processes n ++
        [LoopEv.incr n (curr_step_value batch_size num_processes n),
         LoopEv.exec n, LoopEv.log n]

/-- The configuration fields touched by the save-best-checkpoint override
in `run`. -/
structure TrainingCfg where
  save_best_checkpoint : Bool
  evaluation_epochs : ℚ
  train_validation_data : Bool
deriving DecidableEq

/-- The forced settings of `run` (`train.py` lines 647-650): when
`save_best_checkpoint` is set, `evaluation_epochs` is overwritten with 1
and `train_validation_data` with `False` before training starts; otherwise
the configuration is left unchanged. -/
def force_best_checkpoint_settings (c : TrainingCfg) : TrainingCfg :=
  if c.save_best_checkpoint then
    { c with evaluation_epochs := 1, train_validation_data := false }
  else c

/-- Claim C1 (counterexample): with mode `max` and `save_best_checkpoint`
disabled, the candidate `0` strictly exceeds the initial best `-∞` under the
comparator, yet `best_val_metric` is not updated — refuting "a candidate
value v updates best_metric_value iff v > current best". -/
theorem c1_update_needs_save_flag_counterexample :
    objective_op "max" (PyFloat.fin 0) (init_best "max") = true ∧
    (checkpoint_decision "max" false (init_best "max") (PyFloat.fin 0)).1 = init_best "max" ∧
    init_best "max" ≠ PyFloat.fin 0 := by
  decide

/-- Claim C1 (amended): mode `max` starts the best at `-∞` and mode `min`
at `+∞`; `best_val_metric` is replaced by the candidate, and a checkpoint
saved, exactly when the candidate strictly improves under the mode's strict
comparator (`>` for `max`, `<` for `min`) *and* checkpointing-on-best is
enabled; otherwise the best is kept and nothing is saved. -/
theorem c1_best_metric_update_rule (s : Bool) (best v : PyFloat) :
    init_best "max" = PyFloat.neginf ∧
    init_best "min" = PyFloat.inf ∧
    checkpoint_decision "max" s best v
      = (if PyFloat.lt best v && s then (v, true) else (best, false)) ∧
    checkpoint_decision "min" s best v
      = (if PyFloat.lt v best && s then (v, true) else (best, false)) := by
  refine ⟨rfl, rfl, ?_, ?_⟩ <;> simp [checkpoint_decision, objective_op]

/-- Claim C2 (counterexample): with 10 steps per epoch, a NaN loss at epoch
2, batch index 5 — the 25th iteration of the run, past the claimed
threshold of 20 — does not abort the run, because the code compares the
per-epoch batch index (which is 5 there), not the run-wide iteration
count. -/
theorem c2_per_epoch_exemption_counterexample :
    firstAbort 3 10 c2Loss = none ∧
    (c2Loss 2 5).isFinite = false ∧
    20 ≤ 2 * 10 + 5 := by
  decide

/-- The supervised divergence check does not fire exactly when the loss is
finite or the per-epoch batch index is still in the warm-up window. -/
theorem divergence_check_supervised_eq_false (l : PyFloat) (i : ℕ) :
    divergence_check false l i = false ↔ (20 ≤ i → l.isFinite = true) := by
  by_cases h2 : 20 ≤ i <;> cases h : l.isFinite <;>
    simp [divergence_check, h, h2]

/-- Claim C2 (amended): in supervised mode the run aborts with the fatal
training error exactly when some epoch records a non-finite loss at a batch
index at or after 20 *of the current epoch* (the index resets every epoch);
any non-finite loss strictly before that per-epoch threshold lets the run
continue. -/
theorem c2_divergence_abort_rule (epochs epoch_steps : ℕ) (loss : ℕ → ℕ → PyFloat) :
    (firstAbort epochs epoch_steps loss = none ↔
      ∀ e, e < epochs → ∀ i, i < epoch_steps → 20 ≤ i → (loss e i).isFinite = true) ∧
    (∀ e i, firstAbort epochs epoch_steps loss = some (e, i) →
      e < epochs ∧ i < epoch_steps ∧ 20 ≤ i ∧ (loss e i).isFinite = false) := by
  constructor
  · rw [firstAbort, List.findSome?_eq_none_iff]
    constructor
    · intro h e he i hi hti
      have h1 := h _ (List.mem_range.mpr he)
      rw [Option.map_eq_none', epochFirstAbort, List.find?_eq_none] at h1
      have h2 := Bool.eq_false_iff.mpr (h1 i (List.mem_range.mpr hi))
      exact (divergence_check_supervised_eq_false _ _).mp h2 hti
    · intro h e he
      rw [Option.map_eq_none', epochFirstAbort, List.find?_eq_none]
      intro i hi
      rw [show (¬divergence_check false (loss e i) i = true) ↔
            divergence_check false (loss e i) i = false from Bool.eq_false_iff.symm]
      exact (divergence_check_supervised_eq_false _ _).mpr
        (fun hti => h e (List.mem_range.mp he) i (List.mem_range.mp hi) hti)
  · intro e i h
    obtain ⟨a, ha, hfa⟩ := List.exists_of_findSome?_eq_some h
    rw [Option.map_eq_some'] at hfa
    obtain ⟨j, hj, hji⟩ := hfa
    obtain ⟨rfl, rfl⟩ : a = e ∧ j = i := by
      constructor <;> [exact congrArg Prod.fst hji; exact congrArg Prod.snd hji]
    have hmem := List.mem_of_find?_eq_some hj
    have hp := List.find?_some hj
    simp only [divergence_check, Bool.not_false, Bool.true_and, Bool.and_eq_true,
      Bool.not_eq_true', decide_eq_true_eq] at hp
    exact ⟨List.mem_range.mp ha, List.mem_range.mp hmem, hp.2, hp.1⟩

/-- Claim C2 witness: a single-epoch run of 25 steps with NaN at batch
index 24 aborts there. -/
theorem c2_divergence_abort_rule_witness :
    0 < 1 ∧ 24 < 25 ∧ 20 ≤ 24 ∧ (c2WitnessLoss 0 24).isFinite = false :=
  (c2_divergence_abort_rule 1 25 c2WitnessLoss).2 0 24 (by decide)

/-- Claim C3 (counterexample): with 10 steps per epoch and an evaluation
fraction of `0.27`, the code's interval is `int(2.7) = 2` while the claimed
interval is `round(2.7) = 3`; the code then triggers an evaluation at
iteration count 2, which is not a multiple of 3. -/
theorem c3_interval_truncates_counterexample :
    evaluation_step 10 (27 / 100) = 2 ∧
    spec_round ((10 : ℚ) * (27 / 100)) = 3 ∧
    eval_triggered 1 (evaluation_step 10 (27 / 100)) = true ∧
    ¬ ((3 : ℤ) ∣ (1 + 1)) := by
  refine ⟨?_, ?_, ?_, by decide⟩ <;> norm_num [evaluation_step, py_int, spec_round, eval_triggered]

/-- Claim C3 (amended): the evaluation interval is
`int(steps_per_epoch × evaluation_fraction)` — truncation toward zero, not
rounding to nearest; evaluation triggers exactly at the iteration counts
`itr + 1` that are multiples of that interval; and a fraction of `1.0`
yields the interval `steps_per_epoch`, hence exactly one evaluation per
epoch, at the last step. -/
theorem c3_evaluation_interval_rule (s : ℕ) (f : ℚ) (itr : ℕ) (hs : 1 ≤ s) :
    evaluation_step s f = py_int ((s : ℚ) * f) ∧
    (eval_triggered itr (evaluation_step s f) = true ↔
      evaluation_step s f ∣ ((itr : ℤ) + 1)) ∧
    evaluation_step s 1 = (s : ℤ) ∧
    (itr < s → (eval_triggered itr (evaluation_step s 1) = true ↔ itr = s - 1)) := by
  have htrig : ∀ es : ℤ, eval_triggered itr es = true ↔ es ∣ ((itr : ℤ) + 1) := by
    intro es
    rw [eval_triggered, beq_iff_eq, ← Int.dvd_iff_emod_eq_zero]
  have hes : evaluation_step s 1 = (s : ℤ) := by
    rw [evaluation_step, mul_one, py_int, if_pos (Nat.cast_nonneg s), Int.floor_natCast]
  refine ⟨rfl, htrig _, hes, ?_⟩
  intro hlt
  rw [hes, htrig]
  constructor
  · intro hdvd
    have h1 : (0 : ℤ) < (itr : ℤ) + 1 := by positivity
    have h2 := Int.le_of_dvd h1 hdvd
    omega
  · intro heq
    have h3 : ((itr : ℤ) + 1) = (s : ℤ) := by omega
    rw [h3]

/-- Claim C3 witness: with 4 steps per epoch and fraction `1.0` the interval
is 4 and, among the batch indices of the epoch, index 3 (the last step) is
exactly where evaluation triggers. -/
theorem c3_evaluation_interval_rule_witness :
    evaluation_step 4 1 = (4 : ℤ) ∧
    (eval_triggered 3 (evaluation_step 4 1) = true ↔ 3 = 4 - 1) :=
  ⟨(c3_evaluation_interval_rule 4 1 3 (by decide)).2.2.1,
   (c3_evaluation_interval_rule 4 1 3 (by decide)).2.2.2 (by decide)⟩

/-- A padded gather is never shorter than the validation set: for `W ≥ 1`
workers, `N ≤ W * ⌈N / W⌉`. -/
theorem validation_length_le_gathered (W N : ℕ) (hW : 1 ≤ W) :
    N ≤ gathered_length W N := by
  rw [gathered_length]
  have h := Nat.div_add_mod (N + W - 1) W
  have h2 : (N + W - 1) % W < W := Nat.mod_lt _ (by omega)
  revert h h2
  generalize (N + W - 1) / W = q
  generalize (N + W - 1) % W = r
  generalize W * q = m
  intro h h2
  omega

/-- Claim C4: for every worker count `W ≥ 1` and validation-set length `N`,
if every entry of the gathered output mapping has the padded gathered
length `W * ⌈N / W⌉`, then after the truncation step every entry has
exactly `N` leading entries. -/
theorem c4_gather_truncate_exact_length (W N : ℕ) (val_data : List (String × List ℤ))
    (hW : 1 ≤ W)
    (hlen : ∀ kv, kv ∈ val_data → kv.2.length = gathered_length W N) :
    ∀ kv, kv ∈ truncate_val_data N val_data → kv.2.length = N := by
  intro kv hkv
  rw [truncate_val_data] at hkv
  obtain ⟨kv0, hkv0, rfl⟩ := List.mem_map.mp hkv
  simp only [List.length_take]
  rw [hlen kv0 hkv0]
  exact Nat.min_eq_left (validation_length_le_gathered W N hW)

/-- Claim C4 witness: 2 workers, 3 validation examples (3 is not divisible
by 2, so the gathered entry has 4 = 2 × ⌈3/2⌉ entries); truncation leaves
exactly 3. -/
theorem c4_gather_truncate_exact_length_witness :
    (("loss", List.take 3 ([10, 11, 12, 13] : List ℤ)).2).length = 3 :=
  c4_gather_truncate_exact_length 2 3 [("loss", [10, 11, 12, 13])] (by decide)
    (by intro kv hkv; rw [List.mem_singleton] at hkv; subst hkv; rfl)
    ("loss", List.take 3 [10, 11, 12, 13]) (by decide)

/-- Claim C10: the divergence check never fires in RLHF mode (it is gated
on the supervised branch), every RLHF diagnostic that reaches the logger is
finite, and every finite scalar diagnostic of the step output is logged on
the `train` channel — so a non-finite PPO diagnostic is merely omitted from
the diagnostic logging while training continues. -/
theorem c10_rlhf_no_divergence_abort (loss : PyFloat) (itr : ℕ)
    (output_dict : List (String × PyFloat)) :
    divergence_check true loss itr = false ∧
    (∀ e, e ∈ rlhf_diag_logs output_dict → e.value.isFinite = true) ∧
    (∀ k v, (k, v) ∈ output_dict → v.isFinite = true →
      ({ channel := "train", key := k, value := v } : LogEntry) ∈ rlhf_diag_logs output_dict) := by
  refine ⟨rfl, ?_, ?_⟩
  · intro e he
    simp only [rlhf_diag_logs, List.mem_map, List.mem_filter] at he
    obtain ⟨kv, ⟨_, hfin⟩, rfl⟩ := he
    exact hfin
  · intro k v hmem hfin
    simp only [rlhf_diag_logs, List.mem_map, List.mem_filter]
    exact ⟨(k, v), ⟨hmem, hfin⟩, rfl⟩

/-- Claim C10 witness: with a NaN PPO total loss at iteration 25 no abort
fires, and the finite diagnostic of the same step output is logged. -/
theorem c10_rlhf_no_divergence_abort_witness :
    divergence_check true PyFloat.nan 25 = false ∧
    ({ channel := "train", key := "ppo/mean_scores", value := PyFloat.fin 1 } : LogEntry)
      ∈ rlhf_diag_logs c10Output :=
  ⟨(c10_rlhf_no_divergence_abort PyFloat.nan 25 c10Output).1,
   (c10_rlhf_no_divergence_abort PyFloat.nan 25 c10Output).2.2 "ppo/mean_scores"
     (PyFloat.fin 1) (by decide) rfl⟩

/-- Claim C5: for every accumulation window `A ≥ 1`, the scalar recorded
into `output_dict["loss"]` equals the raw forward loss divided by `A`
(division by 1 for `A = 1`, where the code skips the rescale), and within
the step's action trace the rescale — when present — strictly precedes the
backward pass. -/
theorem c5_loss_rescale_rule (raw : ℚ) (A : ℕ) (clip_norm : ℚ)
    (sync sched : Bool) (hA : 1 ≤ A) :
    (train_one_batch raw A clip_norm sync sched).recorded_loss = raw / (A : ℚ) ∧
    (train_one_batch raw A clip_norm sync sched).events.filter
        (fun e => e == StepEv.rescale || e == StepEv.backward)
      = (if A = 1 then [StepEv.backward] else [StepEv.rescale, StepEv.backward]) := by
  constructor
  · by_cases h1 : A = 1
    · subst h1; simp [train_one_batch]
    · simp [train_one_batch, h1]
  · by_cases h1 : A = 1 <;> by_cases h2 : 0 < clip_norm ∧ sync = true <;> cases sched <;>
      simp [train_one_batch, h1, h2, List.filter_append]

/-- Claim C5 witness: raw loss 6 with accumulation window 3 records `6 / 3`
and rescales strictly before the backward pass. -/
theorem c5_loss_rescale_rule_witness :
    (train_one_batch 6 3 0 false false).recorded_loss = 6 / (3 : ℚ) ∧
    (train_one_batch 6 3 0 false false).events.filter
        (fun e => e == StepEv.rescale || e == StepEv.backward)
      = (if (3 : ℕ) = 1 then [StepEv.backward] else [StepEv.rescale, StepEv.backward]) :=
  c5_loss_rescale_rule 6 3 0 false false (by decide)

/-- A successful `findIdx?` returns the first index satisfying the
predicate: the element there satisfies it and no earlier one does. -/
theorem findIdx_eq_some_first (l : List ℤ) (p : ℤ → Bool) (i : ℕ)
    (h : l.findIdx? p = some i) :
    (∃ a, l[i]? = some a ∧ p a = true) ∧
    (∀ j, j < i → ∀ a, l[j]? = some a → p a = false) := by
  rw [List.findIdx?_eq_some_iff_getElem] at h
  obtain ⟨hlen, hp, hprev⟩ := h
  refine ⟨⟨l[i], List.getElem?_eq_getElem hlen, hp⟩, ?_⟩
  intro j hj a ha
  have hjlen : j < l.length := Nat.lt_trans hj hlen
  have hne := hprev j hj
  rw [List.getElem?_eq_getElem hjlen] at ha
  have : a = l[j] := by injection ha.symm
  subst this
  exact Bool.eq_false_iff.mpr hne

/-- Claim C6: in the RLHF depadding phase, if index `i` is the first
attended (mask `= 1`) position then the query is the input sliced from `i`
to the end; if the mask has no attended token, the query is the unmodified
input; if index `i` is the first pad-token position of the generated
sequence, the response is the prefix of length `i`; if the generated
sequence has no pad token, the response is the unmodified sequence. -/
theorem c6_rlhf_depadding_rule (input_ids att_mask gen : List ℤ) (pad : ℤ) :
    (∀ i, att_mask.findIdx? (fun m => m == 1) = some i →
      strip_query input_ids att_mask = input_ids.drop i ∧
      att_mask[i]? = some 1 ∧ (∀ j, j < i → att_mask[j]? ≠ some 1)) ∧
    ((∀ m, m ∈ att_mask → m ≠ 1) → strip_query input_ids att_mask = input_ids) ∧
    (∀ i, gen.findIdx? (fun t => t == pad) = some i →
      strip_response gen pad = gen.take i ∧
      gen[i]? = some pad ∧ (∀ j, j < i → gen[j]? ≠ some pad)) ∧
    (pad ∉ gen → strip_response gen pad = gen) := by
  refine ⟨?_, ?_, ?_, ?_⟩
  · intro i hi
    obtain ⟨⟨a, ha, hpa⟩, hfirst⟩ := findIdx_eq_some_first _ _ _ hi
    rw [beq_iff_eq] at hpa
    subst hpa
    refine ⟨by simp [strip_query, hi], ha, ?_⟩
    intro j hj hcontra
    have := hfirst j hj 1 hcontra
    simp at this
  · intro hnone
    have h0 : att_mask.findIdx? (fun m => m == 1) = none := by
      rw [List.findIdx?_eq_none_iff]
      intro x hx
      exact beq_eq_false_iff_ne.mpr (hnone x hx)
    simp [strip_query, h0]
  · intro i hi
    obtain ⟨⟨a, ha, hpa⟩, hfirst⟩ := findIdx_eq_some_first _ _ _ hi
    rw [beq_iff_eq] at hpa
    rw [hpa] at ha
    refine ⟨by simp [strip_response, hi], ha, ?_⟩
    intro j hj hcontra
    have := hfirst j hj pad hcontra
    simp at this
  · intro hpad
    have h0 : gen.findIdx? (fun t => t == pad) = none := by
      rw [List.findIdx?_eq_none_iff]
      intro x hx
      exact beq_eq_false_iff_ne.mpr (fun hxp => hpad (hxp ▸ hx))
    simp [strip_response, h0]

/-- Claim C6 witness (the spec's Scenario 3): attention mask `[0,0,1,1]`
produces the attended suffix of length 2; mask `[1,1,1,1]` leaves the full
length-4 query; a response with its first pad token at index 2 is cut to
the prefix of length 2. -/
theorem c6_rlhf_depadding_rule_witness :
    strip_query [10, 11, 12, 13] [0, 0, 1, 1] = List.drop 2 [10, 11, 12, 13] ∧
    strip_query [20, 21, 22, 23] [1, 1, 1, 1] = List.drop 0 [20, 21, 22, 23] ∧
    strip_response [30, 31, 0, 0] 0 = List.take 2 [30, 31, 0, 0] :=
  ⟨((c6_rlhf_depadding_rule [10, 11, 12, 13] [0, 0, 1, 1] [] 0).1 2 (by decide)).1,
   ((c6_rlhf_depadding_rule [20, 21, 22, 23] [1, 1, 1, 1] [] 0).1 0 (by decide)).1,
   ((c6_rlhf_depadding_rule [] [] [30, 31, 0, 0] 0).2.2.1 2 (by decide)).1⟩

/-- Claim C8: the depadding operations are the identity on already-unpadded
data — a query whose attention mask is attended from position 0 and a
generated sequence containing no pad token come back unchanged, so
stripping twice equals stripping once. -/
theorem c8_depadding_identity_on_unpadded (input_ids att_mask gen : List ℤ) (pad : ℤ)
    (hmask : att_mask[0]? = some 1) (hpad : pad ∉ gen) :
    strip_query input_ids att_mask = input_ids ∧
    strip_response gen pad = gen ∧
    strip_query (strip_query input_ids att_mask) att_mask = strip_query input_ids att_mask ∧
    strip_response (strip_response gen pad) pad = strip_response gen pad := by
  have hq : strip_query input_ids att_mask = input_ids := by
    cases att_mask with
    | nil => simp at hmask
    | cons m rest =>
      have hm : m = 1 := by
        simpa using hmask
      subst hm
      simp [strip_query, List.findIdx?_cons]
  have hr : strip_response gen pad = gen := by
    have h0 : gen.findIdx? (fun t => t == pad) = none := by
      rw [List.findIdx?_eq_none_iff]
      intro x hx
      exact beq_eq_false_iff_ne.mpr (fun hxp => hpad (hxp ▸ hx))
    simp [strip_response, h0]
  refine ⟨hq, hr, ?_, ?_⟩
  · rw [hq, hq]
  · rw [hr, hr]

/-- Claim C8 witness: mask attended from position 0 and a pad-free response
pass through both depadding operations unchanged. -/
theorem c8_depadding_identity_on_unpadded_witness :
    strip_query [7, 8, 9] [1, 1, 0] = [7, 8, 9] ∧
    strip_response [4, 5, 6] 0 = [4, 5, 6] ∧
    strip_query (strip_query [7, 8, 9] [1, 1, 0]) [1, 1, 0]
      = strip_query [7, 8, 9] [1, 1, 0] ∧
    strip_response (strip_response [4, 5, 6] 0) 0 = strip_response [4, 5, 6] 0 :=
  c8_depadding_identity_on_unpadded [7, 8, 9] [1, 1, 0] [4, 5, 6] 0 (by decide) (by decide)

/-- The trace of `n` iterations holds three events per iteration. -/
theorem train_loop_trace_length (bs W n : ℕ) :
    (train_loop_trace bs W n).length = 3 * n := by
  induction n with
  | zero => rfl
  | succ n ih =>
    simp only [train_loop_trace, List.length_append, ih, List.length_cons, List.length_nil]
    omega

/-- Claim C7: in the trace of `n` training iterations, iteration `itr`
contributes the consecutive events "advance the counter to
`(itr + 1) × batch_size × num_processes`", "execute the step", "log it" —
in that order, starting at position `3 × itr` — so the increment strictly
precedes the step's execution and logging; and for positive batch size and
worker count the counter values are strictly increasing across
iterations. -/
theorem c7_step_counter_rule (bs W n itr : ℕ) (hbs : 1 ≤ bs) (hW : 1 ≤ W)
    (hitr : itr < n) :
    (∃ rest, train_loop_trace bs W n =
        train_loop_trace bs W itr ++
          (LoopEv.incr itr (curr_step_value bs W itr) ::
           LoopEv.exec itr :: LoopEv.log itr :: rest) ∧
      (train_loop_trace bs W itr).length = 3 * itr) ∧
    (∀ j k, j < k → curr_step_value bs W j < curr_step_value bs W k) := by
  constructor
  · have key : ∀ m, itr < m → ∃ rest, train_loop_trace bs W m =
        train_loop_trace bs W itr ++
          (LoopEv.incr itr (curr_step_value bs W itr) ::
           LoopEv.exec itr :: LoopEv.log itr :: rest) := by
      intro m
      induction m with
      | zero => intro h; omega
      | succ m ih =>
        intro h
        by_cases hc : itr < m
        · obtain ⟨rest, hrest⟩ := ih hc
          refine ⟨rest ++ [LoopEv.incr m (curr_step_value bs W m),
            LoopEv.exec m, LoopEv.log m], ?_⟩
          rw [train_loop_trace, hrest]
          simp [List.append_assoc]
        · have heq : itr = m := by omega
          subst heq
          exact ⟨[], rfl⟩
    obtain ⟨rest, hrest⟩ := key n hitr
    exact ⟨rest, hrest, train_loop_trace_length bs W itr⟩
  · intro j k hjk
    have h0 : 0 < bs * W := Nat.mul_pos hbs hW
    exact (Nat.mul_lt_mul_right h0).mpr (by omega)

/-- Claim C7 witness: with batch size 2 and 2 workers the counter value
after iteration 0's increment (4) is strictly below the value after
iteration 1's increment (8). -/
theorem c7_step_counter_rule_witness :
    curr_step_value 2 2 0 < curr_step_value 2 2 1 :=
  (c7_step_counter_rule 2 2 2 0 (by decide) (by decide) (by decide)).2 0 1 (by decide)

/-- Claim C9: the pre-training override of `run` preserves
`save_best_checkpoint` and, exactly when that flag is set, forces
`evaluation_epochs` to 1 and `train_validation_data` to `False`; with the
flag unset both fields are left as configured. -/
theorem c9_save_best_forces_settings (c : TrainingCfg) :
    (force_best_checkpoint_settings c).save_best_checkpoint = c.save_best_checkpoint ∧
    (force_best_checkpoint_settings c).evaluation_epochs
      = (if c.save_best_checkpoint then 1 else c.evaluation_epochs) ∧
    (force_best_checkpoint_settings c).train_validation_data
      = (if c.save_best_checkpoint then false else c.train_validation_data) := by
  cases hc : c.save_best_checkpoint <;>
    simp [force_best_checkpoint_settings, hc]
